import Mathlib

/-!
Verification of the line-based patcher in images/base/patch_dbusmgr.py.

The script reads a Go source file into a list of lines, applies three
anchor-based edits (insertion of an extra entry into the import block,
a rewrite of a conditional guard, and the replacement of a single
assignment line by a seven-line conditional block), and writes the lines
back.  The definitions below are a shallow embedding of that script:
Python strings become Lean strings, the line list becomes a
List String, each for-loop with a break becomes a search for the first
matching index followed by the corresponding splice.
-/

namespace PatchDbusmgr

/-- The whitespace characters removed by the str.strip method of Python. -/
def pySpace (c : Char) : Bool :=
  c = ' ' || c = '\t' || c = '\n' || c = '\r' || c = '\x0b' || c = '\x0c'

/-- Model of the str.strip method of Python: remove leading and trailing
whitespace. -/
def pyStrip (s : String) : String :=
  String.mk (((s.data.dropWhile pySpace).reverse.dropWhile pySpace).reverse)

/-- Contiguous-sublist test on character lists; `subCh pat l` holds when
`pat` occurs contiguously inside `l`. -/
def subCh (pat : List Char) : List Char → Bool
  | [] => pat.isEmpty
  | c :: cs => pat.isPrefixOf (c :: cs) || subCh pat cs

/-- Model of the Python membership test `pat in s` on strings. -/
def hasSub (s pat : String) : Bool := subCh pat.data s.data

/-- The line inserted into the import block by edit 1: a tab, the quoted
name os, and a newline. -/
def osLine : String := "\t\"os\"\n"

/-- Trimmed form of the import-block opener anchor. -/
def importOpenTrim : String := "import ("

/-- The substring looked for in the lookahead window of edit 1. -/
def osNeedle : String := "\"os\""

/-- The substring anchoring edit 2 (the panic invocation). -/
def panicNeedle : String := "panic(\"can\x27t have both root and rootless dbus\")"

/-- The substring that the line preceding the panic line must contain. -/
def guardNeedle : String := "if dbusInited && rootless != dbusRootless \x7b"

/-- The hard-coded replacement for the guard line. -/
def newGuard : String :=
  "\tif dbusInited && rootless != dbusRootless && os.Getenv(\"CRIO_FORCE_SYSTEM_BUS\") != \"true\" \x7b\n"

/-- Trimmed form of the assignment anchor of edit 3. -/
def assignTrim : String := "dbusRootless = rootless"

/-- The seven lines that replace the assignment line in edit 3
(`indent` in the script is a single tab). -/
def blockLines : List String :=
  [ "\t// Allow forcing system bus usage via environment variable\n"
  , "\t// This is useful for nested containers that run full systemd\n"
  , "\tif os.Getenv(\"CRIO_FORCE_SYSTEM_BUS\") == \"true\" \x7b\n"
  , "\t\tdbusRootless = false\n"
  , "\t\x7d else \x7b\n"
  , "\t\tdbusRootless = rootless\n"
  , "\t\x7d\n" ]

/-- Index of the first line satisfying `p`; embedding of a
`for i, line in enumerate(lines)` loop that breaks at its first match. -/
def firstMatch (p : String → Bool) : List String → Option Nat
  | [] => none
  | l :: ls => if p l then some 0 else (firstMatch p ls).map (· + 1)

/-- The match condition of edit 1: the line strips to the import opener. -/
def isImportOpen (l : String) : Bool := pyStrip l == importOpenTrim

/-- The lookahead condition of edit 1: the line mentions the quoted
os import. -/
def hasOsImport (l : String) : Bool := hasSub l osNeedle

/-- The match condition of edit 2: the panic call occurs in the line. -/
def hasPanic (l : String) : Bool := hasSub l panicNeedle

/-- The match condition of edit 3: the line strips to the assignment anchor. -/
def isAssign (l : String) : Bool := pyStrip l == assignTrim

/-- Edit 1 of the script: find the first line whose trimmed content is
the import opener; when the ten-line window `lines[i:i+10]` does not already
mention `"os"`, insert the import line right after the opener. -/
def edit1 (lines : List String) : List String :=
  match firstMatch isImportOpen lines with
  | none => lines
  | some i =>
    if ((lines.drop i).take 10).any hasOsImport then lines
    else lines.take (i + 1) ++ osLine :: lines.drop (i + 1)

/-- Edit 2 of the script: find the first line containing the panic call;
look at index `i - 1` (for `i = 0` the Python index `-1` denotes the last
line) and, when that line contains the guard substring, overwrite it with
the hard-coded augmented guard. -/
def edit2 (lines : List String) : List String :=
  match firstMatch hasPanic lines with
  | none => lines
  | some i =>
    let j := if i = 0 then lines.length - 1 else i - 1
    if hasSub (lines.getD j ("")) guardNeedle then lines.set j newGuard
    else lines

/-- Edit 3 of the script: find the first line whose trimmed content is the
assignment anchor and replace that single line with the seven-line block. -/
def edit3 (lines : List String) : List String :=
  match firstMatch isAssign lines with
  | none => lines
  | some i => lines.take i ++ blockLines ++ lines.drop (i + 1)

/-- The in-memory effect of `patch_dbusmgr` on the list of lines: the three
edits applied in order. -/
def patchLines (lines : List String) : List String := edit3 (edit2 (edit1 lines))

/-- Helper for `splitLinesKeep`: accumulate the current (reversed) line. -/
def splitAux (acc : List Char) : List Char → List String
  | [] => if acc.isEmpty then [] else [String.mk acc.reverse]
  | c :: cs =>
    if c = '\n' then String.mk (acc.reverse ++ ['\n']) :: splitAux [] cs
    else splitAux (c :: acc) cs

/-- Model of `f.readlines()`: split the file content into lines, keeping the
terminating newline of each line. -/
def splitLinesKeep (s : String) : List String := splitAux [] s.data

/-- Model of `f.writelines(lines)`: concatenate the lines back. -/
def joinLines (ls : List String) : String := String.mk (ls.map String.data).flatten

/-- Observable result of one `patch_dbusmgr(filepath)` call: the content
written back, and the text printed to stdout. -/
structure PatchResult where
  content : String
  messages : List String
deriving DecidableEq

/-- The whole `patch_dbusmgr` function: read the lines, apply the three
edits, write the result back and print the success message
(printed unconditionally). -/
def patch_dbusmgr (path content : String) : PatchResult :=
  { content := joinLines (patchLines (splitLinesKeep content))
  , messages := ["Successfully patched " ++ path] }

/-- Observable result of the `__main__` block: exit code, stdout lines, and
the content written to the target file (`none` when no write happened). -/
structure MainResult where
  exitCode : Nat
  output : List String
  written : Option String
deriving DecidableEq

/-- The `__main__` block: with an argument count different from one script
name plus one positional argument, print the usage text and exit with
status 1 without touching the file; otherwise run the patch. -/
def mainRun (argv : List String) (content : String) : MainResult :=
  if argv.length ≠ 2 then
    { exitCode := 1
    , output := ["Usage: patch_dbusmgr.py <path_to_dbusmgr.go>"]
    , written := none }
  else
    let r := patch_dbusmgr (argv.getD 1 "") content
    { exitCode := 0, output := r.messages, written := some r.content }

/-! ### Basic lemmas about the embedding -/

theorem subCh_iff (pat l : List Char) : subCh pat l = true ↔ pat <:+: l := by
  induction l with
  | nil => simp [subCh, List.isEmpty_iff, List.infix_nil]
  | cons c cs ih =>
      simp [subCh, List.isPrefixOf_iff_prefix, ih, List.infix_cons_iff]

theorem hasSub_iff (s pat : String) : hasSub s pat = true ↔ pat.data <:+: s.data :=
  subCh_iff _ _

theorem pyStrip_contained (s : String) : (pyStrip s).data <:+: s.data := by
  have h1 : s.data.dropWhile pySpace <:+ s.data := List.dropWhile_suffix _
  have h2 : ((s.data.dropWhile pySpace).reverse.dropWhile pySpace).reverse
      <+: (s.data.dropWhile pySpace).reverse.reverse :=
    List.reverse_prefix.mpr (List.dropWhile_suffix _)
  rw [List.reverse_reverse] at h2
  exact h2.isInfix.trans h1.isInfix

theorem hasSub_of_pyStrip {s pat : String} (h : pyStrip s = pat) :
    hasSub s pat = true := by
  rw [hasSub_iff, ← h]
  exact pyStrip_contained s

theorem firstMatch_cons_pos {p : String → Bool} {l : String} {ls : List String}
    (h : p l = true) : firstMatch p (l :: ls) = some 0 := by
  simp [firstMatch, h]

theorem firstMatch_cons_neg {p : String → Bool} {l : String} {ls : List String}
    (h : p l = false) :
    firstMatch p (l :: ls) = (firstMatch p ls).map (· + 1) := by
  simp [firstMatch, h]

theorem firstMatch_none {p : String → Bool} {ls : List String}
    (h : ∀ l ∈ ls, p l = false) : firstMatch p ls = none := by
  induction ls with
  | nil => rfl
  | cons l ls ih =>
      rw [firstMatch_cons_neg (h l (by simp)), ih (fun x hx => h x (by simp [hx]))]
      rfl

theorem firstMatch_append {p : String → Bool} {P : List String} (Q : List String)
    (h : ∀ l ∈ P, p l = false) :
    firstMatch p (P ++ Q) = (firstMatch p Q).map (· + P.length) := by
  induction P with
  | nil =>
      simp only [List.nil_append, List.length_nil]
      cases firstMatch p Q <;> simp
  | cons l ls ih =>
      rw [List.cons_append, firstMatch_cons_neg (h l (by simp)),
        ih (fun x hx => h x (by simp [hx]))]
      cases firstMatch p Q <;> simp <;> omega

theorem firstMatch_lt {p : String → Bool} {ls : List String} {i : Nat}
    (h : firstMatch p ls = some i) : i < ls.length := by
  induction ls generalizing i with
  | nil => simp [firstMatch] at h
  | cons l ls ih =>
      by_cases hl : p l = true
      · rw [firstMatch_cons_pos hl] at h
        simp at h
        subst h
        simp
      · rw [firstMatch_cons_neg (by simpa using hl)] at h
        rcases Option.map_eq_some'.mp h with ⟨i', hi', hrw⟩
        have := ih hi'
        simp
        omega

theorem take_append_len (A C : List String) (n : Nat) :
    (A ++ C).take (A.length + n) = A ++ C.take n := by
  induction A with
  | nil => simp
  | cons a as ih =>
      have h : as.length + 1 + n = (as.length + n) + 1 := by omega
      simp only [List.cons_append, List.length_cons, h, List.take_succ_cons, ih]

theorem drop_append_len (A C : List String) (n : Nat) :
    (A ++ C).drop (A.length + n) = C.drop n := by
  induction A with
  | nil => simp
  | cons a as ih =>
      have h : as.length + 1 + n = (as.length + n) + 1 := by omega
      simp only [List.cons_append, List.length_cons, h, List.drop_succ_cons, ih]

theorem set_append_len (A C : List String) (n : Nat) (x : String) :
    (A ++ C).set (A.length + n) x = A ++ C.set n x := by
  induction A with
  | nil => simp
  | cons a as ih =>
      have h : as.length + 1 + n = (as.length + n) + 1 := by omega
      simp only [List.cons_append, List.length_cons, h, List.set_cons_succ, ih]

theorem getD_append_len (A C : List String) (n : Nat) (d : String) :
    (A ++ C).getD (A.length + n) d = C.getD n d := by
  induction A with
  | nil => simp
  | cons a as ih =>
      have h : as.length + 1 + n = (as.length + n) + 1 := by omega
      simp only [List.cons_append, List.length_cons, h, List.getD_cons_succ, ih]

/-! ### Equation lemmas for the three edits -/

theorem edit1_eq_none {lines : List String}
    (h : firstMatch isImportOpen lines = none) : edit1 lines = lines := by
  unfold edit1
  rw [h]

theorem edit1_eq_some {lines : List String} {i : Nat}
    (h : firstMatch isImportOpen lines = some i) :
    edit1 lines =
      if ((lines.drop i).take 10).any hasOsImport then lines
      else lines.take (i + 1) ++ osLine :: lines.drop (i + 1) := by
  unfold edit1
  rw [h]

theorem edit2_eq_none {lines : List String}
    (h : firstMatch hasPanic lines = none) : edit2 lines = lines := by
  unfold edit2
  rw [h]

theorem edit2_eq_some {lines : List String} {i : Nat}
    (h : firstMatch hasPanic lines = some i) :
    edit2 lines =
      if hasSub (lines.getD (if i = 0 then lines.length - 1 else i - 1) "") guardNeedle
      then lines.set (if i = 0 then lines.length - 1 else i - 1) newGuard
      else lines := by
  unfold edit2
  rw [h]

theorem edit3_eq_none {lines : List String}
    (h : firstMatch isAssign lines = none) : edit3 lines = lines := by
  unfold edit3
  rw [h]

theorem edit3_eq_some {lines : List String} {i : Nat}
    (h : firstMatch isAssign lines = some i) :
    edit3 lines = lines.take i ++ blockLines ++ lines.drop (i + 1) := by
  unfold edit3
  rw [h]

/-! ### Bridges between the Bool match conditions and their Prop forms -/

theorem isImportOpen_false {l : String} (h : pyStrip l ≠ importOpenTrim) :
    isImportOpen l = false := by
  simp [isImportOpen, h]

theorem isImportOpen_true {l : String} (h : pyStrip l = importOpenTrim) :
    isImportOpen l = true := by
  simp [isImportOpen, h]

theorem isAssign_false {l : String} (h : pyStrip l ≠ assignTrim) :
    isAssign l = false := by
  simp [isAssign, h]

theorem isAssign_true {l : String} (h : pyStrip l = assignTrim) :
    isAssign l = true := by
  simp [isAssign, h]

/-! ### Behaviour of each edit on a decomposed line list -/

/-- Edit 1 on a list whose first import opener is `o`: when the ten-line
window starting at the opener is free of the `"os"` substring, the import
line is inserted right after the opener. -/
theorem edit1_insert (A B : List String) (o : String)
    (hA : ∀ l ∈ A, isImportOpen l = false) (ho : isImportOpen o = true)
    (hwin : ((o :: B).take 10).any hasOsImport = false) :
    edit1 (A ++ o :: B) = A ++ o :: osLine :: B := by
  have hf : firstMatch isImportOpen (A ++ o :: B) = some A.length := by
    rw [firstMatch_append (o :: B) hA, firstMatch_cons_pos ho]
    simp
  rw [edit1_eq_some hf]
  have hdrop : (A ++ o :: B).drop A.length = o :: B := by
    simpa using drop_append_len A (o :: B) 0
  have htake : (A ++ o :: B).take (A.length + 1) = A ++ [o] := by
    simpa using take_append_len A (o :: B) 1
  have hdrop1 : (A ++ o :: B).drop (A.length + 1) = B := by
    simpa using drop_append_len A (o :: B) 1
  rw [hdrop, hwin, htake, hdrop1]
  simp

/-- Edit 1 on a list whose first import opener is `o`: when the ten-line
window starting at the opener already mentions `"os"`, nothing changes. -/
theorem edit1_skip (A B : List String) (o : String)
    (hA : ∀ l ∈ A, isImportOpen l = false) (ho : isImportOpen o = true)
    (hwin : ((o :: B).take 10).any hasOsImport = true) :
    edit1 (A ++ o :: B) = A ++ o :: B := by
  have hf : firstMatch isImportOpen (A ++ o :: B) = some A.length := by
    rw [firstMatch_append (o :: B) hA, firstMatch_cons_pos ho]
    simp
  rw [edit1_eq_some hf]
  have hdrop : (A ++ o :: B).drop A.length = o :: B := by
    simpa using drop_append_len A (o :: B) 0
  rw [hdrop, hwin]
  simp

/-- Edit 1 leaves a list without any import opener unchanged. -/
theorem edit1_noop (lines : List String)
    (h : ∀ l ∈ lines, isImportOpen l = false) : edit1 lines = lines :=
  edit1_eq_none (firstMatch_none h)

/-- Edit 2 when the first panic line `p` is not the first line of the file
and its predecessor `g` contains the guard substring: `g` is overwritten
with the hard-coded augmented guard. -/
theorem edit2_replace (P Q : List String) (g p : String)
    (hP : ∀ l ∈ P, hasPanic l = false) (hg : hasPanic g = false)
    (hp : hasPanic p = true) (hguard : hasSub g guardNeedle = true) :
    edit2 (P ++ g :: p :: Q) = P ++ newGuard :: p :: Q := by
  have hf : firstMatch hasPanic (P ++ g :: p :: Q) = some (P.length + 1) := by
    rw [firstMatch_append (g :: p :: Q) hP, firstMatch_cons_neg hg,
      firstMatch_cons_pos hp]
    simp [Nat.add_comm]
  rw [edit2_eq_some hf]
  have hne : P.length + 1 ≠ 0 := Nat.succ_ne_zero _
  simp only [if_neg hne, Nat.add_sub_cancel]
  have hget : (P ++ g :: p :: Q).getD P.length "" = g := by
    simpa using getD_append_len P (g :: p :: Q) 0 ""
  have hset : (P ++ g :: p :: Q).set P.length newGuard = P ++ newGuard :: p :: Q := by
    simpa using set_append_len P (g :: p :: Q) 0 newGuard
  rw [hget, hguard, hset]
  simp

/-- Edit 2 when the first panic line `p` is not the first line of the file
and its predecessor `g` does not contain the guard substring: no change. -/
theorem edit2_skip (P Q : List String) (g p : String)
    (hP : ∀ l ∈ P, hasPanic l = false) (hg : hasPanic g = false)
    (hp : hasPanic p = true) (hguard : hasSub g guardNeedle = false) :
    edit2 (P ++ g :: p :: Q) = P ++ g :: p :: Q := by
  have hf : firstMatch hasPanic (P ++ g :: p :: Q) = some (P.length + 1) := by
    rw [firstMatch_append (g :: p :: Q) hP, firstMatch_cons_neg hg,
      firstMatch_cons_pos hp]
    simp [Nat.add_comm]
  rw [edit2_eq_some hf]
  have hne : P.length + 1 ≠ 0 := Nat.succ_ne_zero _
  simp only [if_neg hne, Nat.add_sub_cancel]
  have hget : (P ++ g :: p :: Q).getD P.length "" = g := by
    simpa using getD_append_len P (g :: p :: Q) 0 ""
  rw [hget, hguard]
  simp

/-- Edit 2 leaves a list without any panic line unchanged. -/
theorem edit2_noop (lines : List String)
    (h : ∀ l ∈ lines, hasPanic l = false) : edit2 lines = lines :=
  edit2_eq_none (firstMatch_none h)

/-- Edit 3 on a list whose first assignment-anchor line is `a`: that single
line is replaced by the seven-line block. -/
theorem edit3_replace (P Q : List String) (a : String)
    (hP : ∀ l ∈ P, isAssign l = false) (ha : isAssign a = true) :
    edit3 (P ++ a :: Q) = P ++ blockLines ++ Q := by
  have hf : firstMatch isAssign (P ++ a :: Q) = some P.length := by
    rw [firstMatch_append (a :: Q) hP, firstMatch_cons_pos ha]
    simp
  rw [edit3_eq_some hf]
  have htake : (P ++ a :: Q).take P.length = P := by
    simpa using take_append_len P (a :: Q) 0
  have hdrop : (P ++ a :: Q).drop (P.length + 1) = Q := by
    simpa using drop_append_len P (a :: Q) 1
  rw [htake, hdrop]

/-- Edit 3 leaves a list without any assignment-anchor line unchanged. -/
theorem edit3_noop (lines : List String)
    (h : ∀ l ∈ lines, isAssign l = false) : edit3 lines = lines :=
  edit3_eq_none (firstMatch_none h)

/-! ### Facts about the inserted constant lines -/

theorem hasPanic_osLine : hasPanic osLine = false := by decide

theorem hasPanic_newGuard : hasPanic newGuard = false := by decide

theorem hasOsImport_osLine : hasOsImport osLine = true := by decide

theorem newGuard_no_guardNeedle : hasSub newGuard guardNeedle = false := by decide

theorem isAssign_osLine : isAssign osLine = false := by decide

theorem isAssign_newGuard : isAssign newGuard = false := by decide

/-! ### The whole pipeline on a file with the three anchors in place -/

/-- One run of the patcher over a file decomposed around its three anchors:
`o` is the first import opener, the window at the opener is free of `"os"`,
`p` is the first line containing the panic call, its predecessor `g`
contains the guard substring, and `a` is the first assignment-anchor line.
All three edits fire. -/
theorem pipeline_eq (A B C D : List String) (o g p a : String)
    (hA : ∀ l ∈ A, isImportOpen l = false)
    (ho : isImportOpen o = true)
    (hwin : ((o :: (B ++ g :: p :: (C ++ a :: D))).take 10).any hasOsImport = false)
    (hPanicA : ∀ l ∈ A, hasPanic l = false)
    (hPanicO : hasPanic o = false)
    (hPanicB : ∀ l ∈ B, hasPanic l = false)
    (hPanicG : hasPanic g = false)
    (hp : hasPanic p = true)
    (hguard : hasSub g guardNeedle = true)
    (hAssignA : ∀ l ∈ A, isAssign l = false)
    (hAssignO : isAssign o = false)
    (hAssignB : ∀ l ∈ B, isAssign l = false)
    (hAssignP : isAssign p = false)
    (hAssignC : ∀ l ∈ C, isAssign l = false)
    (ha : isAssign a = true) :
    patchLines (A ++ o :: (B ++ g :: p :: (C ++ a :: D)))
      = A ++ o :: osLine :: (B ++ newGuard :: p :: (C ++ (blockLines ++ D))) := by
  have h1 : edit1 (A ++ o :: (B ++ g :: p :: (C ++ a :: D)))
      = A ++ o :: osLine :: (B ++ g :: p :: (C ++ a :: D)) :=
    edit1_insert A (B ++ g :: p :: (C ++ a :: D)) o hA ho hwin
  have hP2 : ∀ l ∈ A ++ o :: osLine :: B, hasPanic l = false := by
    intro l hl
    simp at hl
    rcases hl with hl | rfl | rfl | hl
    · exact hPanicA l hl
    · exact hPanicO
    · exact hasPanic_osLine
    · exact hPanicB l hl
  have h2 : edit2 (A ++ o :: osLine :: (B ++ g :: p :: (C ++ a :: D)))
      = A ++ o :: osLine :: (B ++ newGuard :: p :: (C ++ a :: D)) := by
    simpa using edit2_replace (A ++ o :: osLine :: B) (C ++ a :: D) g p hP2 hPanicG hp hguard
  have hP3 : ∀ l ∈ A ++ o :: osLine :: (B ++ newGuard :: p :: C), isAssign l = false := by
    intro l hl
    simp at hl
    rcases hl with hl | rfl | rfl | hl | rfl | rfl | hl
    · exact hAssignA l hl
    · exact hAssignO
    · exact isAssign_osLine
    · exact hAssignB l hl
    · exact isAssign_newGuard
    · exact hAssignP
    · exact hAssignC l hl
  have h3 : edit3 (A ++ o :: osLine :: (B ++ newGuard :: p :: (C ++ a :: D)))
      = A ++ o :: osLine :: (B ++ newGuard :: p :: (C ++ (blockLines ++ D))) := by
    simpa using edit3_replace (A ++ o :: osLine :: (B ++ newGuard :: p :: C)) D a hP3 ha
  unfold patchLines
  rw [h1, h2, h3]

/-! ### Claim theorems -/

/-- C5: for any input file, only the first line whose trimmed content is
exactly `import (` is considered; if none of the lines in the ten-line
lookahead window starting at that opener contains the substring `"os"`,
the line `\t"os"\n` is inserted immediately after the opener, shifting all
subsequent lines down by one; if the window already contains `"os"`,
nothing is inserted; scanning stops after the first opener either way. -/
theorem import_insertion_first_opener (A B : List String) (o : String)
    (hA : ∀ l ∈ A, pyStrip l ≠ importOpenTrim)
    (ho : pyStrip o = importOpenTrim) :
    (((o :: B).take 10).any hasOsImport = false →
      edit1 (A ++ o :: B) = A ++ o :: osLine :: B)
    ∧ (((o :: B).take 10).any hasOsImport = true →
      edit1 (A ++ o :: B) = A ++ o :: B) := by
  refine ⟨fun hwin => ?_, fun hwin => ?_⟩
  · exact edit1_insert A B o (fun l hl => isImportOpen_false (hA l hl))
      (isImportOpen_true ho) hwin
  · exact edit1_skip A B o (fun l hl => isImportOpen_false (hA l hl))
      (isImportOpen_true ho) hwin

/-- Witness for C5: the three-line import block of the spec scenario. -/
theorem import_insertion_first_opener_witness :
    edit1 ["import (\n", "\t\"fmt\"\n", ")\n"]
      = ["import (\n", "\t\"os\"\n", "\t\"fmt\"\n", ")\n"] := by
  have h := (import_insertion_first_opener [] ["\t\"fmt\"\n", ")\n"] "import (\n"
    (by simp) (by decide)).1 (by decide)
  simpa [osLine] using h

/-- C4: the first line whose trimmed content is exactly
`dbusRootless = rootless` is replaced by the seven-line block (two comment
lines, an if line, an assignment, an else line, an assignment, a closing
brace) with hard-coded one-tab outer and two-tab inner indentation,
regardless of the indentation of the original line; only the first such
line is replaced. -/
theorem assign_block_replacement (P Q : List String) (a : String)
    (hP : ∀ l ∈ P, pyStrip l ≠ assignTrim)
    (ha : pyStrip a = assignTrim) :
    edit3 (P ++ a :: Q)
      = P ++ "\t// Allow forcing system bus usage via environment variable\n"
          :: "\t// This is useful for nested containers that run full systemd\n"
          :: "\tif os.Getenv(\"CRIO_FORCE_SYSTEM_BUS\") == \"true\" \x7b\n"
          :: "\t\tdbusRootless = false\n"
          :: "\t\x7d else \x7b\n"
          :: "\t\tdbusRootless = rootless\n"
          :: "\t\x7d\n" :: Q := by
  have h := edit3_replace P Q a (fun l hl => isAssign_false (hP l hl)) (isAssign_true ha)
  simpa [blockLines] using h

/-- Witness for C4: a space-indented assignment line is still matched and
the replacement block is tab-indented. -/
theorem assign_block_replacement_witness :
    edit3 ["package main\n", "    dbusRootless = rootless\n", "x\n"]
      = ["package main\n"] ++ blockLines ++ ["x\n"] := by
  have h := assign_block_replacement ["package main\n"] ["x\n"]
    "    dbusRootless = rootless\n" (by decide) (by decide)
  simpa [blockLines] using h

/-- C3 counterexample: a preceding line that merely contains the guard as a
substring (here behind a comment marker, so its trimmed content is not the
guard) is still rewritten, refuting the stated trimmed-equality condition. -/
theorem guard_edit_trim_counterexample :
    pyStrip ("// if dbusInited && rootless != dbusRootless \x7b x\n") ≠ guardNeedle
    ∧ edit2 ["// if dbusInited && rootless != dbusRootless \x7b x\n",
             "\t\tpanic(\"can\x27t have both root and rootless dbus\")\n"]
        = [newGuard, "\t\tpanic(\"can\x27t have both root and rootless dbus\")\n"]
    ∧ edit2 ["// if dbusInited && rootless != dbusRootless \x7b x\n",
             "\t\tpanic(\"can\x27t have both root and rootless dbus\")\n"]
        ≠ ["// if dbusInited && rootless != dbusRootless \x7b x\n",
           "\t\tpanic(\"can\x27t have both root and rootless dbus\")\n"] := by
  decide

/-- C3 (amended): edit 2 replaces the line immediately preceding the first
panic line if and only if that preceding line contains the guard as a
substring (the script checks containment, not trimmed equality); when the
preceding line does not contain it, the edit is silently skipped and no
line is modified; in the matching case only the preceding line changes and
the panic line is untouched. -/
theorem guard_edit_containment (P Q : List String) (g p : String)
    (hP : ∀ l ∈ P, hasSub l panicNeedle = false)
    (hg : hasSub g panicNeedle = false)
    (hp : hasSub p panicNeedle = true) :
    (hasSub g guardNeedle = true →
      edit2 (P ++ g :: p :: Q) = P ++ newGuard :: p :: Q)
    ∧ (hasSub g guardNeedle = false →
      edit2 (P ++ g :: p :: Q) = P ++ g :: p :: Q) :=
  ⟨fun h => edit2_replace P Q g p hP hg hp h,
   fun h => edit2_skip P Q g p hP hg hp h⟩

/-- Witness for C3: a well-shaped guard line is rewritten, the panic line
stays; a non-matching predecessor is left alone. -/
theorem guard_edit_containment_witness :
    edit2 ["\tif dbusInited && rootless != dbusRootless \x7b\n",
           "\t\tpanic(\"can\x27t have both root and rootless dbus\")\n"]
      = [newGuard, "\t\tpanic(\"can\x27t have both root and rootless dbus\")\n"]
    ∧ edit2 ["\tif true \x7b\n",
             "\t\tpanic(\"can\x27t have both root and rootless dbus\")\n"]
      = ["\tif true \x7b\n",
         "\t\tpanic(\"can\x27t have both root and rootless dbus\")\n"] := by
  constructor
  · have h := (guard_edit_containment [] []
      "\tif dbusInited && rootless != dbusRootless \x7b\n"
      "\t\tpanic(\"can\x27t have both root and rootless dbus\")\n"
      (by simp) (by decide) (by decide)).1 (by decide)
    simpa using h
  · have h := (guard_edit_containment [] [] "\tif true \x7b\n"
      "\t\tpanic(\"can\x27t have both root and rootless dbus\")\n"
      (by simp) (by decide) (by decide)).2 (by decide)
    simpa using h

/-- C10: whatever the matched guard line looked like (its indentation and
any surrounding text on the line are discarded), the replacement is the
fixed hard-coded one-tab guard line. -/
theorem guard_replacement_hardcoded (P Q : List String) (g p : String)
    (hP : ∀ l ∈ P, hasSub l panicNeedle = false)
    (hg : hasSub g panicNeedle = false)
    (hp : hasSub p panicNeedle = true)
    (hguard : hasSub g guardNeedle = true) :
    edit2 (P ++ g :: p :: Q)
      = P ++ "\tif dbusInited && rootless != dbusRootless && os.Getenv(\"CRIO_FORCE_SYSTEM_BUS\") != \"true\" \x7b\n"
          :: p :: Q := by
  have h := edit2_replace P Q g p hP hg hp hguard
  simpa [newGuard] using h

/-- Witness for C10: a deeply indented guard line with trailing text on it
is replaced by the fixed one-tab line. -/
theorem guard_replacement_hardcoded_witness :
    edit2 ["a\n", "      if dbusInited && rootless != dbusRootless \x7b // note\n",
           "panic(\"can\x27t have both root and rootless dbus\")\n"]
      = ["a\n",
         "\tif dbusInited && rootless != dbusRootless && os.Getenv(\"CRIO_FORCE_SYSTEM_BUS\") != \"true\" \x7b\n",
         "panic(\"can\x27t have both root and rootless dbus\")\n"] := by
  have h := guard_replacement_hardcoded ["a\n"] []
    "      if dbusInited && rootless != dbusRootless \x7b // note\n"
    "panic(\"can\x27t have both root and rootless dbus\")\n"
    (by decide) (by decide) (by decide) (by decide)
  simpa using h

/-- C8: when the first line containing the panic call is the very first
line of the file, the Python index `i - 1 = -1` selects the last line of
the file; if that last line contains the guard substring it is the one
replaced; the index used is always in bounds, so the access never fails. -/
theorem panic_first_line_wrap (p : String) (Q : List String)
    (hp : hasSub p panicNeedle = true) :
    ((p :: Q).length - 1 < (p :: Q).length)
    ∧ (hasSub ((p :: Q).getD ((p :: Q).length - 1) "") guardNeedle = true →
        edit2 (p :: Q) = (p :: Q).set ((p :: Q).length - 1) newGuard)
    ∧ (hasSub ((p :: Q).getD ((p :: Q).length - 1) "") guardNeedle = false →
        edit2 (p :: Q) = p :: Q) := by
  have hf : firstMatch hasPanic (p :: Q) = some 0 := firstMatch_cons_pos hp
  have he := edit2_eq_some hf
  rw [if_pos rfl] at he
  refine ⟨by simp, fun h => ?_, fun h => ?_⟩
  · rw [he, if_pos h]
  · rw [he, if_neg (by rw [h]; exact Bool.false_ne_true)]

/-- Witness for C8: a file whose first line is the panic line and whose
last line contains the guard; the last line is rewritten. -/
theorem panic_first_line_wrap_witness :
    edit2 ["panic(\"can\x27t have both root and rootless dbus\")\n",
           "\tif dbusInited && rootless != dbusRootless \x7b\n"]
      = ["panic(\"can\x27t have both root and rootless dbus\")\n", newGuard] := by
  have h := (panic_first_line_wrap
    ("panic(\"can\x27t have both root and rootless dbus\")\n")
    ["\tif dbusInited && rootless != dbusRootless \x7b\n"]
    (by decide)).2.1 (by decide)
  simpa using h

/-! ### Read/write round trip and the no-anchor run (C6) -/

theorem data_mk (l : List Char) : (String.mk l).data = l := rfl

theorem splitAux_join (cs acc : List Char) :
    ((splitAux acc cs).map String.data).flatten = acc.reverse ++ cs := by
  induction cs generalizing acc with
  | nil =>
      by_cases h : acc.isEmpty
      · have hacc : acc = [] := List.isEmpty_iff.mp h
        simp [splitAux, h, hacc]
      · simp [splitAux, h, data_mk]
  | cons c cs ih =>
      by_cases h : c = '\n'
      · subst h
        simp [splitAux, data_mk, ih]
      · simp [splitAux, h, ih, List.reverse_cons, List.append_assoc]

theorem joinLines_splitLinesKeep (s : String) : joinLines (splitLinesKeep s) = s := by
  unfold joinLines splitLinesKeep
  rw [splitAux_join]
  rfl

/-- C6: on an input containing none of the three anchors, the patcher
rewrites the file with content identical byte for byte to the original,
and still prints the success message; nothing signals the absence of the
anchors. -/
theorem missing_anchors_noop (path content : String)
    (h1 : ∀ l ∈ splitLinesKeep content, pyStrip l ≠ importOpenTrim)
    (h2 : ∀ l ∈ splitLinesKeep content, hasSub l panicNeedle = false)
    (h3 : ∀ l ∈ splitLinesKeep content, pyStrip l ≠ assignTrim) :
    (patch_dbusmgr path content).content = content
    ∧ (patch_dbusmgr path content).messages = ["Successfully patched " ++ path] := by
  have hpl : patchLines (splitLinesKeep content) = splitLinesKeep content := by
    unfold patchLines
    rw [edit1_noop _ (fun l hl => isImportOpen_false (h1 l hl)),
      edit2_noop _ (fun l hl => h2 l hl),
      edit3_noop _ (fun l hl => isAssign_false (h3 l hl))]
  refine ⟨?_, rfl⟩
  show joinLines (patchLines (splitLinesKeep content)) = content
  rw [hpl, joinLines_splitLinesKeep]

/-- Witness for C6: a small Go file without any of the anchors. -/
theorem missing_anchors_noop_witness :
    (patch_dbusmgr ("dbusmgr.go") ("package main\nfunc main() \x7b\n\x7d\n")).content
        = "package main\nfunc main() \x7b\n\x7d\n"
    ∧ (patch_dbusmgr ("dbusmgr.go") ("package main\nfunc main() \x7b\n\x7d\n")).messages
        = ["Successfully patched dbusmgr.go"] := by
  have h := missing_anchors_noop ("dbusmgr.go") ("package main\nfunc main() \x7b\n\x7d\n")
    (by decide) (by decide) (by decide)
  exact ⟨h.1, h.2.trans (by decide)⟩

/-- C7: with an argument count different from exactly one positional
argument the tool prints the usage line and exits with status 1 without
writing the file; with exactly one argument it patches and prints the
confirmation naming the target path. -/
theorem main_argument_handling (argv : List String) (content : String) :
    (argv.length ≠ 2 →
      mainRun argv content
        = { exitCode := 1
          , output := ["Usage: patch_dbusmgr.py <path_to_dbusmgr.go>"]
          , written := none })
    ∧ (argv.length = 2 →
      mainRun argv content
        = { exitCode := 0
          , output := ["Successfully patched " ++ argv.getD 1 ""]
          , written := some (joinLines (patchLines (splitLinesKeep content))) }) := by
  constructor
  · intro h
    simp [mainRun, h]
  · intro h
    simp [mainRun, h, patch_dbusmgr]

/-- Witness for C7: zero positional arguments, then one positional
argument on an anchor-free file. -/
theorem main_argument_handling_witness :
    mainRun ["patch_dbusmgr.py"] "x\n"
      = { exitCode := 1
        , output := ["Usage: patch_dbusmgr.py <path_to_dbusmgr.go>"]
        , written := none }
    ∧ mainRun ["patch_dbusmgr.py", "dbusmgr.go"] "x\n"
      = { exitCode := 0
        , output := ["Successfully patched dbusmgr.go"]
        , written := some "x\n" } := by
  constructor
  · exact (main_argument_handling ["patch_dbusmgr.py"] "x\n").1 (by decide)
  · exact ((main_argument_handling ["patch_dbusmgr.py", "dbusmgr.go"] "x\n").2
      (by decide)).trans (by decide)

/-! ### Shape of each edit on an arbitrary input (C9) -/

theorem firstMatch_isSome {p : String → Bool} {ls : List String} {x : String}
    (hx : x ∈ ls) (hpx : p x = true) : ∃ k, firstMatch p ls = some k := by
  induction ls with
  | nil => cases hx
  | cons l t ih =>
      by_cases hl : p l = true
      · exact ⟨0, firstMatch_cons_pos hl⟩
      · rcases List.mem_cons.mp hx with rfl | hx'
        · exact absurd hpx hl
        · rcases ih hx' with ⟨k, hk⟩
          refine ⟨k + 1, ?_⟩
          rw [firstMatch_cons_neg (by simpa using hl), hk]
          rfl

theorem edit1_shape (L : List String) :
    edit1 L = L
    ∨ ∃ i, i < L.length ∧ edit1 L = L.take (i + 1) ++ osLine :: L.drop (i + 1) := by
  cases hf : firstMatch isImportOpen L with
  | none => exact Or.inl (edit1_eq_none hf)
  | some i =>
      rw [edit1_eq_some hf]
      by_cases hw : ((L.drop i).take 10).any hasOsImport = true
      · left
        rw [if_pos hw]
      · right
        refine ⟨i, firstMatch_lt hf, ?_⟩
        rw [if_neg hw]

theorem edit2_shape (L : List String) :
    edit2 L = L ∨ ∃ j, j < L.length ∧ edit2 L = L.set j newGuard := by
  cases hf : firstMatch hasPanic L with
  | none => exact Or.inl (edit2_eq_none hf)
  | some i =>
      rw [edit2_eq_some hf]
      by_cases hg : hasSub (L.getD (if i = 0 then L.length - 1 else i - 1) "") guardNeedle = true
      · right
        refine ⟨if i = 0 then L.length - 1 else i - 1, ?_, by rw [if_pos hg]⟩
        have hi := firstMatch_lt hf
        split <;> omega
      · left
        rw [if_neg hg]

theorem edit3_shape (L : List String) :
    edit3 L = L
    ∨ ∃ k, k < L.length ∧ edit3 L = L.take k ++ blockLines ++ L.drop (k + 1) := by
  cases hf : firstMatch isAssign L with
  | none => exact Or.inl (edit3_eq_none hf)
  | some i => exact Or.inr ⟨i, firstMatch_lt hf, edit3_eq_some hf⟩

theorem length_edit1_le (L : List String) : (edit1 L).length ≤ L.length + 1 := by
  rcases edit1_shape L with h | ⟨i, hi, h⟩
  · rw [h]
    omega
  · rw [h]
    simp [List.length_append, List.length_take, List.length_drop]
    omega

theorem length_edit2_eq (L : List String) : (edit2 L).length = L.length := by
  rcases edit2_shape L with h | ⟨j, hj, h⟩
  · rw [h]
  · rw [h]
    simp

theorem length_edit3_le (L : List String) : (edit3 L).length ≤ L.length + 6 := by
  rcases edit3_shape L with h | ⟨k, hk, h⟩
  · rw [h]
    omega
  · rw [h]
    simp [List.length_append, List.length_take, List.length_drop, blockLines]
    omega

/-- C9: one run touches at most three sites: edit 1 inserts at most one
line (an insertion at one position, every other line kept in order),
edit 2 overwrites at most one line in place, edit 3 replaces at most one
line by the seven-line block; hence the output has at most seven more
lines than the input. -/
theorem patch_frame_property (lines : List String) :
    (edit1 lines = lines
      ∨ ∃ i, i < lines.length
          ∧ edit1 lines = lines.take (i + 1) ++ osLine :: lines.drop (i + 1))
    ∧ (edit2 (edit1 lines) = edit1 lines
      ∨ ∃ j, j < (edit1 lines).length
          ∧ edit2 (edit1 lines) = (edit1 lines).set j newGuard)
    ∧ (patchLines lines = edit2 (edit1 lines)
      ∨ ∃ k, k < (edit2 (edit1 lines)).length
          ∧ patchLines lines
              = (edit2 (edit1 lines)).take k ++ blockLines
                  ++ (edit2 (edit1 lines)).drop (k + 1))
    ∧ (patchLines lines).length ≤ lines.length + 7 := by
  refine ⟨edit1_shape lines, edit2_shape (edit1 lines),
    edit3_shape (edit2 (edit1 lines)), ?_⟩
  have h1 := length_edit1_le lines
  have h2 := length_edit2_eq (edit1 lines)
  have h3 := length_edit3_le (edit2 (edit1 lines))
  unfold patchLines at h3 ⊢
  omega

/-! ### One anchored run end to end (C1) -/

/-- An input carrying the three anchors in their expected shapes — the
opener at line 0 with an `"os"`-free ten-line window, the guard/panic pair
at lines 3 and 4, the assignment at line 6 — plus one more `\t"os"\n` line
past the window. -/
def c1Input : List String :=
  [ "import (\n"
  , "\t\"fmt\"\n"
  , ")\n"
  , "\tif dbusInited && rootless != dbusRootless \x7b\n"
  , "\t\tpanic(\"can\x27t have both root and rootless dbus\")\n"
  , "\t\x7d\n"
  , "\tdbusRootless = rootless\n"
  , "// filler one\n"
  , "// filler two\n"
  , "// filler three\n"
  , "\t\"os\"\n" ]

/-- C1 counterexample: `c1Input` satisfies the stated anchor shapes (the
`"os"`-absence condition is scoped to the ten-line lookahead window), yet
after patching the `\t"os"\n` line is present twice, not exactly once. -/
theorem patch_os_count_counterexample :
    pyStrip (c1Input.getD 0 "") = importOpenTrim
    ∧ (c1Input.take 10).any hasOsImport = false
    ∧ hasSub (c1Input.getD 4 "") panicNeedle = true
    ∧ pyStrip (c1Input.getD 3 "") = guardNeedle
    ∧ pyStrip (c1Input.getD 6 "") = assignTrim
    ∧ (patchLines c1Input).count osLine = 2 := by
  decide

/-- C1 (amended): on a file with the three anchors in their expected
relative shapes, one run inserts the `"os"` import line exactly once,
immediately after the opener, replaces the guard line by the augmented
guard, and replaces the assignment line by the conditional block; the
`"os"` import line is present exactly once in the output provided the
exact line `\t"os"\n` occurred nowhere in the input (the window condition
alone does not rule out further occurrences past the window). -/
theorem patch_anchored_file (A B C D : List String) (o g p a : String)
    (hA : ∀ l ∈ A, pyStrip l ≠ importOpenTrim)
    (ho : pyStrip o = importOpenTrim)
    (hwin : ((o :: (B ++ g :: p :: (C ++ a :: D))).take 10).any hasOsImport = false)
    (hPanicPre : ∀ l ∈ A ++ o :: B, hasSub l panicNeedle = false)
    (hPanicG : hasSub g panicNeedle = false)
    (hp : hasSub p panicNeedle = true)
    (hguard : pyStrip g = guardNeedle)
    (hAssignPre : ∀ l ∈ A ++ o :: (B ++ g :: p :: C), pyStrip l ≠ assignTrim)
    (ha : pyStrip a = assignTrim) :
    patchLines (A ++ o :: (B ++ g :: p :: (C ++ a :: D)))
      = A ++ o :: osLine :: (B ++ newGuard :: p :: (C ++ (blockLines ++ D)))
    ∧ (osLine ∉ A ++ o :: (B ++ g :: p :: (C ++ a :: D)) →
        (patchLines (A ++ o :: (B ++ g :: p :: (C ++ a :: D)))).count osLine = 1) := by
  have hmain := pipeline_eq A B C D o g p a
    (fun l hl => isImportOpen_false (hA l hl))
    (isImportOpen_true ho)
    hwin
    (fun l hl => hPanicPre l (by simp [hl]))
    (hPanicPre o (by simp))
    (fun l hl => hPanicPre l (by simp [hl]))
    hPanicG
    hp
    (hasSub_of_pyStrip hguard)
    (fun l hl => isAssign_false (hAssignPre l (by simp [hl])))
    (isAssign_false (hAssignPre o (by simp)))
    (fun l hl => isAssign_false (hAssignPre l (by simp [hl])))
    (isAssign_false (hAssignPre p (by simp)))
    (fun l hl => isAssign_false (hAssignPre l (by simp [hl])))
    (isAssign_true ha)
  refine ⟨hmain, fun hnot => ?_⟩
  rw [hmain]
  simp only [List.mem_append, List.mem_cons, not_or] at hnot
  obtain ⟨n1, n2, n3, n4, n5, n6, n7, n8⟩ := hnot
  have cA : A.count osLine = 0 := List.count_eq_zero.mpr n1
  have cB : B.count osLine = 0 := List.count_eq_zero.mpr n3
  have cC : C.count osLine = 0 := List.count_eq_zero.mpr n6
  have cD : D.count osLine = 0 := List.count_eq_zero.mpr n8
  have cBlock : blockLines.count osLine = 0 := by decide
  have eo : (o == osLine) = false := beq_eq_false_iff_ne.mpr (Ne.symm n2)
  have ep : (p == osLine) = false := beq_eq_false_iff_ne.mpr (Ne.symm n5)
  have eng : (newGuard == osLine) = false := by decide
  simp [List.count_append, List.count_cons, cA, cB, cC, cD, cBlock, eo, ep, eng]

/-- Witness for C1: the seven-line anchored file; all three edits fire and
the import line appears exactly once. -/
theorem patch_anchored_file_witness :
    patchLines
      [ "import (\n", "\t\"fmt\"\n", ")\n"
      , "\tif dbusInited && rootless != dbusRootless \x7b\n"
      , "\t\tpanic(\"can\x27t have both root and rootless dbus\")\n"
      , "\t\x7d\n", "\tdbusRootless = rootless\n" ]
      = [ "import (\n", osLine, "\t\"fmt\"\n", ")\n", newGuard
        , "\t\tpanic(\"can\x27t have both root and rootless dbus\")\n"
        , "\t\x7d\n" ] ++ blockLines
    ∧ (patchLines
        [ "import (\n", "\t\"fmt\"\n", ")\n"
        , "\tif dbusInited && rootless != dbusRootless \x7b\n"
        , "\t\tpanic(\"can\x27t have both root and rootless dbus\")\n"
        , "\t\x7d\n", "\tdbusRootless = rootless\n" ]).count osLine = 1 := by
  have h := patch_anchored_file [] ["\t\"fmt\"\n", ")\n"] ["\t\x7d\n"] []
    "import (\n"
    "\tif dbusInited && rootless != dbusRootless \x7b\n"
    "\t\tpanic(\"can\x27t have both root and rootless dbus\")\n"
    "\tdbusRootless = rootless\n"
    (by simp) (by decide) (by decide) (by decide) (by decide) (by decide)
    (by decide) (by decide) (by decide)
  constructor
  · exact h.1.trans (by decide)
  · exact h.2 (by decide)

/-! ### The second run (C2) -/

/-- A minimal input carrying all three anchors in their expected shapes. -/
def c2Input : List String :=
  [ "import (\n"
  , ")\n"
  , "\tif dbusInited && rootless != dbusRootless \x7b\n"
  , "\t\tpanic(\"can\x27t have both root and rootless dbus\")\n"
  , "\t\x7d\n"
  , "\tdbusRootless = rootless\n" ]

/-- C2 counterexample: on the output of a first run over `c2Input` (which
has all three anchors), a second run is not a no-op on the line
sequence — edit 3 matches the else-branch assignment line inserted by the
first run and expands it again. -/
theorem second_run_counterexample :
    pyStrip (c2Input.getD 0 "") = importOpenTrim
    ∧ hasSub (c2Input.getD 3 "") panicNeedle = true
    ∧ pyStrip (c2Input.getD 2 "") = guardNeedle
    ∧ pyStrip (c2Input.getD 5 "") = assignTrim
    ∧ patchLines (patchLines c2Input) ≠ patchLines c2Input := by
  decide

/-- C2 (amended): on the output of a first run over an anchored input,
edit 1 inserts nothing (the inserted import line sits inside the lookahead
window) and edit 2 changes nothing (the rewritten guard no longer contains
the original guard text), but edit 3 fires again: the else branch of the
block inserted by the first run trims to `dbusRootless = rootless`, so the
second run expands it into another seven-line block, adding six lines; the
second run is therefore not a no-op on the line sequence. -/
theorem second_run_not_noop (A B C D : List String) (o g p a : String)
    (hA : ∀ l ∈ A, pyStrip l ≠ importOpenTrim)
    (ho : pyStrip o = importOpenTrim)
    (hwin : ((o :: (B ++ g :: p :: (C ++ a :: D))).take 10).any hasOsImport = false)
    (hPanicPre : ∀ l ∈ A ++ o :: B, hasSub l panicNeedle = false)
    (hPanicG : hasSub g panicNeedle = false)
    (hp : hasSub p panicNeedle = true)
    (hguard : pyStrip g = guardNeedle)
    (hAssignPre : ∀ l ∈ A ++ o :: (B ++ g :: p :: C), pyStrip l ≠ assignTrim)
    (ha : pyStrip a = assignTrim) :
    edit1 (patchLines (A ++ o :: (B ++ g :: p :: (C ++ a :: D))))
      = patchLines (A ++ o :: (B ++ g :: p :: (C ++ a :: D)))
    ∧ edit2 (patchLines (A ++ o :: (B ++ g :: p :: (C ++ a :: D))))
      = patchLines (A ++ o :: (B ++ g :: p :: (C ++ a :: D)))
    ∧ (patchLines (patchLines (A ++ o :: (B ++ g :: p :: (C ++ a :: D))))).length
      = (patchLines (A ++ o :: (B ++ g :: p :: (C ++ a :: D)))).length + 6
    ∧ patchLines (patchLines (A ++ o :: (B ++ g :: p :: (C ++ a :: D))))
      ≠ patchLines (A ++ o :: (B ++ g :: p :: (C ++ a :: D))) := by
  have hmain := pipeline_eq A B C D o g p a
    (fun l hl => isImportOpen_false (hA l hl))
    (isImportOpen_true ho)
    hwin
    (fun l hl => hPanicPre l (by simp [hl]))
    (hPanicPre o (by simp))
    (fun l hl => hPanicPre l (by simp [hl]))
    hPanicG
    hp
    (hasSub_of_pyStrip hguard)
    (fun l hl => isAssign_false (hAssignPre l (by simp [hl])))
    (isAssign_false (hAssignPre o (by simp)))
    (fun l hl => isAssign_false (hAssignPre l (by simp [hl])))
    (isAssign_false (hAssignPre p (by simp)))
    (fun l hl => isAssign_false (hAssignPre l (by simp [hl])))
    (isAssign_true ha)
  rw [hmain]
  have htake : (o :: osLine :: (B ++ newGuard :: p :: (C ++ (blockLines ++ D)))).take 10
      = o :: osLine :: (B ++ newGuard :: p :: (C ++ (blockLines ++ D))).take 8 := rfl
  have hwin2 : ((o :: osLine :: (B ++ newGuard :: p :: (C ++ (blockLines ++ D)))).take 10).any
      hasOsImport = true := by
    rw [htake]
    simp [hasOsImport_osLine]
  have h1 : edit1 (A ++ o :: osLine :: (B ++ newGuard :: p :: (C ++ (blockLines ++ D))))
      = A ++ o :: osLine :: (B ++ newGuard :: p :: (C ++ (blockLines ++ D))) :=
    edit1_skip A (osLine :: (B ++ newGuard :: p :: (C ++ (blockLines ++ D)))) o
      (fun l hl => isImportOpen_false (hA l hl)) (isImportOpen_true ho) hwin2
  have hP2 : ∀ l ∈ A ++ o :: osLine :: B, hasPanic l = false := by
    intro l hl
    simp at hl
    rcases hl with hl | rfl | rfl | hl
    · exact hPanicPre l (by simp [hl])
    · exact hPanicPre l (by simp)
    · exact hasPanic_osLine
    · exact hPanicPre l (by simp [hl])
  have h2 : edit2 (A ++ o :: osLine :: (B ++ newGuard :: p :: (C ++ (blockLines ++ D))))
      = A ++ o :: osLine :: (B ++ newGuard :: p :: (C ++ (blockLines ++ D))) := by
    simpa using edit2_skip (A ++ o :: osLine :: B) (C ++ (blockLines ++ D)) newGuard p
      hP2 hasPanic_newGuard hp newGuard_no_guardNeedle
  have hb6mem : "\t\tdbusRootless = rootless\n"
      ∈ A ++ o :: osLine :: (B ++ newGuard :: p :: (C ++ (blockLines ++ D))) := by
    simp [blockLines]
  obtain ⟨k, hk⟩ := @firstMatch_isSome isAssign _ _ hb6mem (by decide)
  have hklt := firstMatch_lt hk
  have h3 := edit3_eq_some hk
  have hlen : (edit3 (A ++ o :: osLine :: (B ++ newGuard :: p :: (C ++ (blockLines ++ D))))).length
      = (A ++ o :: osLine :: (B ++ newGuard :: p :: (C ++ (blockLines ++ D)))).length + 6 := by
    rw [h3]
    simp only [blockLines, List.length_append, List.length_take, List.length_drop,
      List.length_cons, List.length_nil] at hklt ⊢
    omega
  have hpatch : patchLines (A ++ o :: osLine :: (B ++ newGuard :: p :: (C ++ (blockLines ++ D))))
      = edit3 (A ++ o :: osLine :: (B ++ newGuard :: p :: (C ++ (blockLines ++ D)))) := by
    unfold patchLines
    rw [h1, h2]
  refine ⟨h1, h2, ?_, ?_⟩
  · rw [hpatch]
    exact hlen
  · intro he
    rw [hpatch] at he
    rw [he] at hlen
    omega

/-- Witness for C2: a five-line anchored file; the second run leaves edits
1 and 2 alone but re-expands the block, adding six lines. -/
theorem second_run_not_noop_witness :
    edit1 (patchLines
        [ "import (\n"
        , "\tif dbusInited && rootless != dbusRootless \x7b\n"
        , "\t\tpanic(\"can\x27t have both root and rootless dbus\")\n"
        , "\t\x7d\n"
        , "\tdbusRootless = rootless\n" ])
      = patchLines
        [ "import (\n"
        , "\tif dbusInited && rootless != dbusRootless \x7b\n"
        , "\t\tpanic(\"can\x27t have both root and rootless dbus\")\n"
        , "\t\x7d\n"
        , "\tdbusRootless = rootless\n" ]
    ∧ edit2 (patchLines
        [ "import (\n"
        , "\tif dbusInited && rootless != dbusRootless \x7b\n"
        , "\t\tpanic(\"can\x27t have both root and rootless dbus\")\n"
        , "\t\x7d\n"
        , "\tdbusRootless = rootless\n" ])
      = patchLines
        [ "import (\n"
        , "\tif dbusInited && rootless != dbusRootless \x7b\n"
        , "\t\tpanic(\"can\x27t have both root and rootless dbus\")\n"
        , "\t\x7d\n"
        , "\tdbusRootless = rootless\n" ]
    ∧ (patchLines (patchLines
        [ "import (\n"
        , "\tif dbusInited && rootless != dbusRootless \x7b\n"
        , "\t\tpanic(\"can\x27t have both root and rootless dbus\")\n"
        , "\t\x7d\n"
        , "\tdbusRootless = rootless\n" ])).length
      = (patchLines
        [ "import (\n"
        , "\tif dbusInited && rootless != dbusRootless \x7b\n"
        , "\t\tpanic(\"can\x27t have both root and rootless dbus\")\n"
        , "\t\x7d\n"
        , "\tdbusRootless = rootless\n" ]).length + 6
    ∧ patchLines (patchLines
        [ "import (\n"
        , "\tif dbusInited && rootless != dbusRootless \x7b\n"
        , "\t\tpanic(\"can\x27t have both root and rootless dbus\")\n"
        , "\t\x7d\n"
        , "\tdbusRootless = rootless\n" ])
      ≠ patchLines
        [ "import (\n"
        , "\tif dbusInited && rootless != dbusRootless \x7b\n"
        , "\t\tpanic(\"can\x27t have both root and rootless dbus\")\n"
        , "\t\x7d\n"
        , "\tdbusRootless = rootless\n" ] := by
  exact second_run_not_noop [] [] ["\t\x7d\n"] []
    "import (\n"
    "\tif dbusInited && rootless != dbusRootless \x7b\n"
    "\t\tpanic(\"can\x27t have both root and rootless dbus\")\n"
    "\tdbusRootless = rootless\n"
    (by simp) (by decide) (by decide) (by decide) (by decide) (by decide)
    (by decide) (by decide) (by decide)

end PatchDbusmgr
